import Mathlib

/-!
Verification of the latest-flag deduplication demo (src/app.py).

The program loads a host inventory CSV, parses the recency column
with pd.to_datetime(dayfirst, errors=coerce) so that unparseable
values become NaT, groups rows by (Hostname, FQDN) and flags each
row with latest_flag = 1 exactly when its recency compares equal to
the pandas group maximum, then filters the flagged rows to those
with latest_flag == 1 and reports count metrics.

The embedding below follows the pandas semantics the code relies on:
  - a parsed timestamp is modelled as (Option Nat), none standing for
    NaT (a failed or absent parse);
  - Series.max skips NaT values and returns NaT only when every value
    is NaT, so the group maximum is (Option Nat), none when the group
    has no real timestamp;
  - an elementwise equality comparison against NaT is always False in
    pandas, on both sides, so a row compares equal to the maximum only
    when both are real and equal;
  - DataFrame.groupby drops rows whose key contains a null by default
    (dropna=True), and transform leaves NaN in the result column for
    those rows; the flag of such a row is modelled as none.
-/

/-- One row of the dataset.  hostname and fqdn are the entity-key
columns (none models a null cell), lastActive the parsed recency
column (none models NaT), serial the auxiliary identity column, and
payload stands for the remaining opaque columns and gives rows an
identity. -/
structure Row where
  hostname : Option String
  fqdn : Option String
  lastActive : Option Nat
  serial : Option String
  payload : Nat
deriving DecidableEq

/-- The grouping key used by df_flagged.groupby: the (Hostname, FQDN)
tuple of a row. -/
def groupKey (r : Row) : Option String × Option String :=
  (r.hostname, r.fqdn)

/-- The rows of the dataset sharing a given key value. -/
def groupRows (df : List Row) (k : Option String × Option String) : List Row :=
  df.filter (fun s => decide (groupKey s = k))

/-- The real (non-NaT) recency values of a group. -/
def groupRealTimes (df : List Row) (k : Option String × Option String) : List Nat :=
  (groupRows df k).filterMap (fun s => s.lastActive)

/-- Maximum of a list of naturals, none on the empty list.  Models
pandas Series.max with skipna applied to the real values of a group:
the result is none exactly when the group holds no real timestamp. -/
def pdMax : List Nat → Option Nat
  | [] => none
  | x :: xs =>
    match pdMax xs with
    | none => some x
    | some m => some (max x m)

/-- The pandas group maximum of the recency column: max over the real
values, none (NaT) when all values are NaT. -/
def groupMax (df : List Row) (k : Option String × Option String) : Option Nat :=
  pdMax (groupRealTimes df k)

/-- The latest_flag value the transform lambda assigns to row r of
dataset df: rows whose key holds a null are dropped by groupby and
keep NaN (none); otherwise the flag is 1 when the recency compares
equal to the group maximum and 0 otherwise, where a comparison with
NaT on either side is False. -/
def rowFlag (df : List Row) (r : Row) : Option Nat :=
  match r.hostname, r.fqdn with
  | some _, some _ =>
    match r.lastActive, groupMax df (groupKey r) with
    | some t, some m => some (if t = m then 1 else 0)
    | _, _ => some 0
  | _, _ => none

/-- apply_latest_flag_logic: returns the dataset with the derived
latest_flag column attached to each row, in input order. -/
def apply_latest_flag_logic (df : List Row) : List (Row × Option Nat) :=
  df.map (fun r => (r, rowFlag df r))

/-- The clean-dataset step of main: keep exactly the rows whose
latest_flag equals 1 (a boolean-mask filter, order preserving). -/
def canonicalize (fl : List (Row × Option Nat)) : List (Row × Option Nat) :=
  fl.filter (fun p => decide (p.2 = some 1))

/-- The summary metrics block of main. -/
structure Metrics where
  total : Nat
  cleaned : Nat
  removed : Int
  rate : Option ℚ
deriving DecidableEq

/-- The metrics computed at the end of main: total raw entries,
cleaned host count, the duplicates-removed delta, and the
deduplication rate ((total - cleaned) / total * 100).  The division
is unguarded in the code; on a zero-row dataset Python raises
ZeroDivisionError, modelled here as rate = none. -/
def summarize (df : List Row) (clean : List (Row × Option Nat)) : Metrics :=
  { total := df.length
    cleaned := clean.length
    removed := (df.length : Int) - (clean.length : Int)
    rate :=
      if df.length = 0 then none
      else some ((((df.length : Int) - (clean.length : Int) : Int) : ℚ)
        / (df.length : ℚ) * 100) }

/-- Whether a string strips to empty: str(sn).strip() == two quotes.
Python strips whitespace; Char.isWhitespace models that set. -/
def isBlankStr (s : String) : Bool :=
  s.data.all (fun c => c.isWhitespace)

/-- The duplicate-hostname report of load_data: the hostname values
occurring more than once.  value_counts drops null cells, so only
non-null values are counted; the ordering of the report is not
modelled. -/
def duplicate_hostnames (df : List Row) : List String :=
  let vals := df.filterMap (fun r => r.hostname)
  vals.dedup.filter (fun v => decide (2 ≤ vals.count v))

/-- The duplicate-serial report of load_data: serial values occurring
more than once, then filtered by the comprehension that keeps sn only
when pd.notna(sn) holds and str(sn).strip() is nonempty.  value_counts
already drops null cells, so the notna test is modelled as already
satisfied. -/
def duplicate_serial_numbers (df : List Row) : List String :=
  let vals := df.filterMap (fun r => r.serial)
  (vals.dedup.filter (fun v => decide (2 ≤ vals.count v))).filter
    (fun sn => !(isBlankStr sn))

/-- A UTF-8 continuation byte. -/
def utf8Cont (b : Nat) : Bool :=
  decide (0x80 ≤ b) && decide (b ≤ 0xBF)

/-- UTF-8 validity of a byte sequence, modelled from the CPython
utf-8 codec (which rejects overlong forms, surrogates and values
beyond U+10FFFF). -/
def utf8Valid : List Nat → Bool
  | [] => true
  | b :: rest =>
    if b ≤ 0x7F then utf8Valid rest
    else if 0xC2 ≤ b && b ≤ 0xDF then
      match rest with
      | c1 :: r => utf8Cont c1 && utf8Valid r
      | [] => false
    else if b == 0xE0 then
      match rest with
      | c1 :: c2 :: r => (decide (0xA0 ≤ c1) && decide (c1 ≤ 0xBF)) && utf8Cont c2 && utf8Valid r
      | _ => false
    else if (0xE1 ≤ b && b ≤ 0xEC) || b == 0xEE || b == 0xEF then
      match rest with
      | c1 :: c2 :: r => utf8Cont c1 && utf8Cont c2 && utf8Valid r
      | _ => false
    else if b == 0xED then
      match rest with
      | c1 :: c2 :: r => (decide (0x80 ≤ c1) && decide (c1 ≤ 0x9F)) && utf8Cont c2 && utf8Valid r
      | _ => false
    else if b == 0xF0 then
      match rest with
      | c1 :: c2 :: c3 :: r =>
        (decide (0x90 ≤ c1) && decide (c1 ≤ 0xBF)) && utf8Cont c2 && utf8Cont c3 && utf8Valid r
      | _ => false
    else if 0xF1 ≤ b && b ≤ 0xF3 then
      match rest with
      | c1 :: c2 :: c3 :: r => utf8Cont c1 && utf8Cont c2 && utf8Cont c3 && utf8Valid r
      | _ => false
    else if b == 0xF4 then
      match rest with
      | c1 :: c2 :: c3 :: r =>
        (decide (0x80 ≤ c1) && decide (c1 ≤ 0x8F)) && utf8Cont c2 && utf8Cont c3 && utf8Valid r
      | _ => false
    else false

/-- The ordered candidate encodings tried by load_data. -/
def read_csv_encodings : List String :=
  ["utf-8", "latin-1", "cp1252", "iso-8859-1"]

/-- Whether a given candidate encoding decodes a byte sequence
without UnicodeDecodeError, modelled from the CPython codecs: utf-8
requires validity, latin-1 and iso-8859-1 map every byte to a
character and never fail, cp1252 fails exactly on the five unmapped
bytes 0x81, 0x8D, 0x8F, 0x90, 0x9D. -/
def decodes (enc : String) (bs : List (Fin 256)) : Bool :=
  if enc = "utf-8" then utf8Valid (bs.map (fun b => b.val))
  else if enc = "latin-1" then true
  else if enc = "cp1252" then
    bs.all (fun b =>
      !(b.val == 0x81 || b.val == 0x8D || b.val == 0x8F || b.val == 0x90 || b.val == 0x9D))
  else if enc = "iso-8859-1" then true
  else false

/-- The encoding-fallback loop of load_data: the first candidate
encoding that decodes the byte content, none when every candidate
fails (the branch that reports the could-not-decode error and
returns no dataframe). -/
def load_decode (bs : List (Fin 256)) : Option String :=
  read_csv_encodings.find? (fun e => decodes e bs)

/-! Helper lemmas about pdMax and group membership. -/

theorem pdMax_eq_none_iff (l : List Nat) : pdMax l = none ↔ l = [] := by
  cases l with
  | nil => simp [pdMax]
  | cons x xs =>
    simp only [pdMax]
    cases pdMax xs <;> simp

theorem pdMax_mem {l : List Nat} {m : Nat} (h : pdMax l = some m) : m ∈ l := by
  induction l generalizing m with
  | nil => simp [pdMax] at h
  | cons x xs ih =>
    simp only [pdMax] at h
    cases hxs : pdMax xs with
    | none => rw [hxs] at h; simp at h; simp [h]
    | some m0 =>
      rw [hxs] at h
      simp at h
      rcases max_choice x m0 with hmax | hmax
      · rw [hmax] at h; simp [h]
      · rw [hmax] at h; subst h; exact List.mem_cons_of_mem x (ih hxs)

theorem le_pdMax {l : List Nat} {m x : Nat} (hx : x ∈ l) (h : pdMax l = some m) :
    x ≤ m := by
  induction l generalizing m with
  | nil => simp at hx
  | cons y ys ih =>
    simp only [pdMax] at h
    cases hys : pdMax ys with
    | none =>
      rw [hys] at h
      simp at h
      rw [pdMax_eq_none_iff] at hys
      subst hys
      simp at hx
      simp [hx, h]
    | some m0 =>
      rw [hys] at h
      simp at h
      subst h
      rcases List.mem_cons.mp hx with hx | hx
      · subst hx; exact Nat.le_max_left x m0
      · exact Nat.le_trans (ih hx hys) (Nat.le_max_right y m0)

theorem pdMax_eq_some_of {l : List Nat} {m : Nat} (hm : m ∈ l)
    (hb : ∀ x ∈ l, x ≤ m) : pdMax l = some m := by
  cases hmax : pdMax l with
  | none => rw [pdMax_eq_none_iff] at hmax; subst hmax; simp at hm
  | some m0 =>
    have h1 : m0 ≤ m := hb m0 (pdMax_mem hmax)
    have h2 : m ≤ m0 := le_pdMax hm hmax
    rw [Nat.le_antisymm h2 h1]

theorem pdMax_perm {l l' : List Nat} (h : l.Perm l') : pdMax l = pdMax l' := by
  cases hl : pdMax l with
  | none =>
    rw [pdMax_eq_none_iff] at hl
    subst hl
    have hl' : l' = [] := List.Perm.eq_nil h.symm
    subst hl'
    rfl
  | some m =>
    have hm : m ∈ l' := h.mem_iff.mp (pdMax_mem hl)
    have hb : ∀ x ∈ l', x ≤ m := fun x hx => le_pdMax (h.mem_iff.mpr hx) hl
    exact (pdMax_eq_some_of hm hb).symm

theorem mem_groupRows_iff {df : List Row} {k : Option String × Option String}
    {s : Row} : s ∈ groupRows df k ↔ s ∈ df ∧ groupKey s = k := by
  simp [groupRows, List.mem_filter]

theorem mem_groupRealTimes_iff {df : List Row} {k : Option String × Option String}
    {t : Nat} :
    t ∈ groupRealTimes df k ↔ ∃ s ∈ df, groupKey s = k ∧ s.lastActive = some t := by
  simp only [groupRealTimes, List.mem_filterMap]
  constructor
  · rintro ⟨s, hs, hlast⟩
    rcases mem_groupRows_iff.mp hs with ⟨hsd, hsk⟩
    exact ⟨s, hsd, hsk, hlast⟩
  · rintro ⟨s, hsd, hsk, hlast⟩
    exact ⟨s, mem_groupRows_iff.mpr ⟨hsd, hsk⟩, hlast⟩

theorem groupMax_eq_some {df : List Row} {r : Row} {t : Nat} (hr : r ∈ df)
    (hrt : r.lastActive = some t)
    (hb : ∀ u ∈ df, groupKey u = groupKey r → ∀ t', u.lastActive = some t' → t' ≤ t) :
    groupMax df (groupKey r) = some t := by
  apply pdMax_eq_some_of
  · exact mem_groupRealTimes_iff.mpr ⟨r, hr, rfl, hrt⟩
  · intro x hx
    rcases mem_groupRealTimes_iff.mp hx with ⟨s, hsd, hsk, hslast⟩
    exact hb s hsd hsk x hslast

/-! Concrete rows used in evaluations and witnesses. -/

/-- Two rows of one group, both with unparseable recency (NaT). -/
def rB1 : Row := ⟨some "Y", some "B", none, none, 0⟩

/-- Second all-missing row of the same group. -/
def rB2 : Row := ⟨some "Y", some "B", none, none, 1⟩

/-- Scenario A, first row: earlier timestamp. -/
def rA1 : Row := ⟨some "X", some "A", some 1, none, 0⟩

/-- Scenario A, second row: later timestamp. -/
def rA2 : Row := ⟨some "X", some "A", some 2, none, 1⟩

/-- A row with a null Hostname cell, earlier timestamp. -/
def rN1 : Row := ⟨none, some "C", some 1, none, 0⟩

/-- A row with a null Hostname cell, later timestamp. -/
def rN2 : Row := ⟨none, some "C", some 2, none, 1⟩

/-- A row whose hostname and serial are a single space, repeated. -/
def rW1 : Row := ⟨some " ", some "A", none, some " ", 0⟩

/-- Second whitespace-valued row, distinct FQDN. -/
def rW2 : Row := ⟨some " ", some "B", none, some " ", 1⟩

/-- Tied-maximum row one. -/
def rT1 : Row := ⟨some "X", some "A", some 5, none, 0⟩

/-- Tied-maximum row two. -/
def rT2 : Row := ⟨some "X", some "A", some 5, none, 1⟩

/-- Strictly earlier row of the tied group. -/
def rT3 : Row := ⟨some "X", some "A", some 3, none, 2⟩

/-- A missing-recency row in a group that also has a real recency. -/
def rM : Row := ⟨some "X", some "A", none, none, 3⟩

/-- A row with serial value x, first occurrence. -/
def rX1 : Row := ⟨some "h1", some "d", none, some "x", 10⟩

/-- A row with serial value x, second occurrence. -/
def rX2 : Row := ⟨some "h2", some "d", none, some "x", 11⟩

/-- C1: the claim says an all-missing group is flagged all-true
(fail-open), and the in-app pseudo-algorithm text agrees; but a
pandas equality comparison against NaT is always False, so the code
flags both all-missing rows 0, never 1.  Evaluation of the code at
the failing input. -/
theorem all_missing_group_flags_zero :
    apply_latest_flag_logic [rB1, rB2] = [(rB1, some 0), (rB2, some 0)] := by
  decide

/-- C2: the at-least-one-flag invariant fails on the code: the group
of the two all-missing rows is nonempty, yet no row of the flagged
output carries latest_flag 1.  Evaluation of the code at the failing
input. -/
theorem no_latest_row_in_all_missing_group :
    groupRows [rB1, rB2] (groupKey rB1) = [rB1, rB2] ∧
    (apply_latest_flag_logic [rB1, rB2]).all (fun p => !(p.2 == some 1)) = true := by
  decide

/-- C3 counterexample: two rows with a null Hostname cell and the
same FQDN are not grouped and flagged; groupby drops them and their
latest_flag stays NaN, so neither row receives a boolean flag. -/
theorem null_key_rows_not_flagged :
    apply_latest_flag_logic [rN1, rN2] = [(rN1, none), (rN2, none)] ∧
    ¬ ∃ b : Nat, rowFlag [rN1, rN2] rN1 = some b := by
  constructor
  · decide
  · rintro ⟨b, hb⟩
    have h : rowFlag [rN1, rN2] rN1 = none := by decide
    rw [h] at hb
    exact Option.noConfusion hb

/-- C3 amended: the groups partition only the rows whose key cells
are all non-null, and exactly those rows receive a boolean flag; a
row with a null key component is excluded from grouping and its flag
value is the missing value. -/
theorem valid_key_partition_and_flag (df : List Row) (r : Row) (hr : r ∈ df) :
    (r.hostname ≠ none → r.fqdn ≠ none →
      (∃! k, r ∈ groupRows df k) ∧
      ∃ b : Nat, rowFlag df r = some b ∧ (b = 0 ∨ b = 1)) ∧
    ((r.hostname = none ∨ r.fqdn = none) → rowFlag df r = none) := by
  constructor
  · intro hh hf
    constructor
    · exact ⟨groupKey r, mem_groupRows_iff.mpr ⟨hr, rfl⟩,
        fun k hk => ((mem_groupRows_iff.mp hk).2).symm⟩
    · cases hhost : r.hostname with
      | none => exact absurd hhost hh
      | some a =>
        cases hfq : r.fqdn with
        | none => exact absurd hfq hf
        | some c =>
          simp only [rowFlag, hhost, hfq]
          cases r.lastActive with
          | none => exact ⟨0, rfl, Or.inl rfl⟩
          | some t =>
            cases groupMax df (groupKey r) with
            | none => exact ⟨0, rfl, Or.inl rfl⟩
            | some m =>
              by_cases ht : t = m
              · exact ⟨1, by simp [ht], Or.inr rfl⟩
              · exact ⟨0, by simp [ht], Or.inl rfl⟩
  · intro hnull
    rcases hnull with hh | hf
    · simp [rowFlag, hh]
    · cases hhost : r.hostname with
      | none => simp [rowFlag, hhost]
      | some a => simp [rowFlag, hhost, hf]

/-- C3 witness: the amended statement applied to a valid-key row and
to a null-key row, hypotheses discharged at concrete inputs. -/
theorem valid_key_partition_and_flag_witness :
    ((∃! k, rA1 ∈ groupRows [rA1] k) ∧
      ∃ b : Nat, rowFlag [rA1] rA1 = some b ∧ (b = 0 ∨ b = 1)) ∧
    rowFlag [rN1] rN1 = none :=
  ⟨(valid_key_partition_and_flag [rA1] rA1 (by decide)).1 (by decide) (by decide),
   (valid_key_partition_and_flag [rN1] rN1 (by decide)).2 (by decide)⟩

/-- C4 counterexample: on the zero-row dataset the code does not
return a 0 percent rate; the unguarded division fails (rate none). -/
theorem summarize_empty_input_rate_none :
    (summarize ([] : List Row) []).rate = none ∧
    (summarize ([] : List Row) []).rate ≠ some 0 := by
  decide

/-- C4 amended: for every nonempty input the summary reports total
and canonical counts, discarded = total minus canonical, and rate =
discarded / total * 100 percent (checked at a concrete two-row,
one-survivor input, where it is 50 percent); on the zero-row dataset
total and canonical are 0 but the rate computation divides by zero
and fails instead of reporting 0 percent. -/
theorem summarize_nonempty_spec (df : List Row)
    (clean : List (Row × Option Nat)) (h : df ≠ []) :
    (summarize df clean).total = df.length ∧
    (summarize df clean).cleaned = clean.length ∧
    (summarize df clean).removed = (df.length : Int) - (clean.length : Int) ∧
    (summarize df clean).rate =
      some ((((df.length : Int) - (clean.length : Int) : Int) : ℚ)
        / (df.length : ℚ) * 100) ∧
    (summarize [rA1, rA2] [(rA2, some 1)]).rate = some 50 ∧
    (summarize ([] : List Row) []).total = 0 ∧
    (summarize ([] : List Row) []).cleaned = 0 ∧
    (summarize ([] : List Row) []).rate = none := by
  have hlen : df.length ≠ 0 := fun h0 => h (List.length_eq_zero.mp h0)
  refine ⟨rfl, rfl, rfl, ?_, ?_, rfl, rfl, rfl⟩
  · simp [summarize, hlen]
  · norm_num [summarize]

/-- C4 witness: the amended statement applied at a concrete one-row
input. -/
theorem summarize_nonempty_spec_witness :
    (summarize [rA1] ([] : List (Row × Option Nat))).total = 1 ∧
    (summarize [rA1] ([] : List (Row × Option Nat))).removed = 1 :=
  ⟨(summarize_nonempty_spec [rA1] [] (by decide)).1,
   (summarize_nonempty_spec [rA1] [] (by decide)).2.2.1⟩

/-- Shared computation step: for a row with non-null key cells and a
real recency equal to the group maximum, the flag is 1. -/
theorem rowFlag_one_of_max {df : List Row} {r : Row} {t : Nat}
    (hh : r.hostname ≠ none) (hf : r.fqdn ≠ none)
    (hrt : r.lastActive = some t)
    (hmax : groupMax df (groupKey r) = some t) :
    rowFlag df r = some 1 := by
  cases hhost : r.hostname with
  | none => exact absurd hhost hh
  | some a =>
    cases hfq : r.fqdn with
    | none => exact absurd hfq hf
    | some c =>
      have hkey : groupKey r = (some a, some c) := by
        simp [groupKey, hhost, hfq]
      rw [hkey] at hmax
      simp [rowFlag, hhost, hfq, hrt, hkey, hmax]

/-- Shared computation step: for a row with non-null key cells and a
real recency different from the real group maximum, the flag is 0. -/
theorem rowFlag_zero_of_ne_max {df : List Row} {r : Row} {t m : Nat}
    (hh : r.hostname ≠ none) (hf : r.fqdn ≠ none)
    (hrt : r.lastActive = some t)
    (hmax : groupMax df (groupKey r) = some m) (hne : t ≠ m) :
    rowFlag df r = some 0 := by
  cases hhost : r.hostname with
  | none => exact absurd hhost hh
  | some a =>
    cases hfq : r.fqdn with
    | none => exact absurd hfq hf
    | some c =>
      have hkey : groupKey r = (some a, some c) := by
        simp [groupKey, hhost, hfq]
      rw [hkey] at hmax
      simp [rowFlag, hhost, hfq, hrt, hkey, hmax, hne]

/-- Shared computation step: a missing-recency row with non-null key
cells is flagged 0, whatever the group maximum is. -/
theorem rowFlag_zero_of_missing {df : List Row} {r : Row}
    (hh : r.hostname ≠ none) (hf : r.fqdn ≠ none)
    (hmiss : r.lastActive = none) :
    rowFlag df r = some 0 := by
  cases hhost : r.hostname with
  | none => exact absurd hhost hh
  | some a =>
    cases hfq : r.fqdn with
    | none => exact absurd hfq hf
    | some c =>
      simp [rowFlag, hhost, hfq, hmiss]

/-- Rows with equal group key have equal hostname and fqdn cells. -/
theorem groupKey_eq_components {r s : Row} (h : groupKey s = groupKey r) :
    s.hostname = r.hostname ∧ s.fqdn = r.fqdn := by
  simpa [groupKey, Prod.ext_iff] using h

/-- C5: when two rows of one group share the maximum real recency of
the group, both are flagged 1, and every row of the group with a
strictly earlier real recency is flagged 0: ties are kept, no single
winner is chosen. -/
theorem tied_rows_all_flagged_latest (df : List Row) (r s : Row) (t : Nat)
    (hr : r ∈ df) (hs : s ∈ df)
    (hh : r.hostname ≠ none) (hf : r.fqdn ≠ none)
    (hks : groupKey s = groupKey r)
    (hrt : r.lastActive = some t) (hst : s.lastActive = some t)
    (hub : ∀ x ∈ groupRealTimes df (groupKey r), x ≤ t) :
    rowFlag df r = some 1 ∧ rowFlag df s = some 1 ∧
    ∀ u ∈ df, groupKey u = groupKey r → ∀ t', u.lastActive = some t' →
      t' < t → rowFlag df u = some 0 := by
  have hmem : t ∈ groupRealTimes df (groupKey r) :=
    mem_groupRealTimes_iff.mpr ⟨r, hr, rfl, hrt⟩
  have hmax : groupMax df (groupKey r) = some t := pdMax_eq_some_of hmem hub
  obtain ⟨hsh, hsf⟩ := groupKey_eq_components hks
  refine ⟨rowFlag_one_of_max hh hf hrt hmax, ?_, ?_⟩
  · have hmax' : groupMax df (groupKey s) = some t := by rw [hks]; exact hmax
    exact rowFlag_one_of_max (hsh ▸ hh) (hsf ▸ hf) hst hmax'
  · intro u hu hku t' hut' hlt
    obtain ⟨huh, huf⟩ := groupKey_eq_components hku
    have hmaxu : groupMax df (groupKey u) = some t := by rw [hku]; exact hmax
    exact rowFlag_zero_of_ne_max (huh ▸ hh) (huf ▸ hf) hut' hmaxu (Nat.ne_of_lt hlt)

/-- C5 witness: the tie theorem at a concrete three-row group with
two rows at the maximum and one strictly earlier row. -/
theorem tied_rows_all_flagged_latest_witness :
    rowFlag [rT1, rT2, rT3] rT1 = some 1 ∧
    rowFlag [rT1, rT2, rT3] rT2 = some 1 ∧
    rowFlag [rT1, rT2, rT3] rT3 = some 0 := by
  obtain ⟨h1, h2, h3⟩ := tied_rows_all_flagged_latest [rT1, rT2, rT3] rT1 rT2 5
    (by decide) (by decide) (by decide) (by decide) (by decide)
    (by decide) (by decide) (by decide)
  exact ⟨h1, h2, h3 rT3 (by decide) (by decide) 3 (by decide) (by decide)⟩

/-- C6: in a group that holds at least one real recency, the group
maximum is a real timestamp bounding every real value (the missing
sentinel never exceeds a real timestamp), and every missing-recency
row of the group is flagged 0, so a missing row never wins such a
group. -/
theorem missing_recency_flagged_false (df : List Row) (r s : Row)
    (hr : r ∈ df) (hh : r.hostname ≠ none) (hf : r.fqdn ≠ none)
    (hmiss : r.lastActive = none)
    (hs : s ∈ df) (hks : groupKey s = groupKey r)
    (hreal : s.lastActive.isSome = true) :
    (∃ m, groupMax df (groupKey r) = some m ∧
      ∀ x ∈ groupRealTimes df (groupKey r), x ≤ m) ∧
    rowFlag df r = some 0 := by
  constructor
  · obtain ⟨t, hst⟩ := Option.isSome_iff_exists.mp hreal
    have hmem : t ∈ groupRealTimes df (groupKey r) :=
      mem_groupRealTimes_iff.mpr ⟨s, hs, hks, hst⟩
    cases hmax : groupMax df (groupKey r) with
    | none =>
      rw [groupMax, pdMax_eq_none_iff] at hmax
      rw [hmax] at hmem
      exact absurd hmem (List.not_mem_nil t)
    | some m =>
      exact ⟨m, rfl, fun x hx => le_pdMax hx hmax⟩
  · exact rowFlag_zero_of_missing hh hf hmiss

/-- C6 witness: the missing-sentinel theorem at a concrete group with
one missing-recency row and one real-recency row. -/
theorem missing_recency_flagged_false_witness :
    (∃ m, groupMax [rM, rT1] (groupKey rM) = some m ∧
      ∀ x ∈ groupRealTimes [rM, rT1] (groupKey rM), x ≤ m) ∧
    rowFlag [rM, rT1] rM = some 0 :=
  missing_recency_flagged_false [rM, rT1] rM rT1 (by decide) (by decide)
    (by decide) (by decide) (by decide) (by decide) (by decide)

/-- C7: the flag assignment is a pure function of the dataset
contents: permuting the input rows leaves the flag of every row
unchanged, and the flagged output of the permuted run pairs each row
with the flag it had against the original dataset. -/
theorem flag_perm_invariant (df df' : List Row) (h : df.Perm df') :
    (∀ r : Row, rowFlag df' r = rowFlag df r) ∧
    apply_latest_flag_logic df' = df'.map (fun r => (r, rowFlag df r)) := by
  have hg : ∀ k, groupMax df' k = groupMax df k := by
    intro k
    apply pdMax_perm
    exact List.Perm.filterMap _ (List.Perm.filter _ h.symm)
  have h1 : ∀ r : Row, rowFlag df' r = rowFlag df r := by
    intro r
    simp only [rowFlag, hg]
  refine ⟨h1, ?_⟩
  simp only [apply_latest_flag_logic]
  exact List.map_congr_left (fun r _ => by rw [h1 r])

/-- C7 witness: the permutation theorem at a concrete two-row
dataset and its reversal. -/
theorem flag_perm_invariant_witness :
    rowFlag [rA2, rA1] rA1 = rowFlag [rA1, rA2] rA1 :=
  (flag_perm_invariant [rA1, rA2] [rA2, rA1] (by decide)).1 rA1

/-- C8: the clean dataset is exactly the rows flagged 1, taken as an
order-preserving sublist of the flagged dataset with rows and flags
unchanged, and every flagged-1 row survives; canonicalizing scenario
A keeps exactly its second row. -/
theorem canonicalize_filters_latest (fl : List (Row × Option Nat)) :
    List.Sublist (canonicalize fl) fl ∧
    (∀ p ∈ canonicalize fl, p.2 = some 1) ∧
    (∀ p ∈ fl, p.2 = some 1 → p ∈ canonicalize fl) ∧
    canonicalize (apply_latest_flag_logic [rA1, rA2]) = [(rA2, some 1)] := by
  refine ⟨List.filter_sublist fl, ?_, ?_, by decide⟩
  · intro p hp
    have h := (List.mem_filter.mp hp).2
    simpa using h
  · intro p hp h1
    exact List.mem_filter.mpr ⟨hp, by simp [h1]⟩

/-- C8 witness: the filter theorem applied at the concrete scenario A
flagged dataset, its membership hypotheses discharged there. -/
theorem canonicalize_filters_latest_witness :
    (rA2, some 1) ∈ canonicalize (apply_latest_flag_logic [rA1, rA2]) :=
  (canonicalize_filters_latest (apply_latest_flag_logic [rA1, rA2])).2.2.1
    (rA2, some 1) (by decide) (by decide)

/-- C9: the could-not-decode failure branch of load_data is
unreachable: for every byte content the candidate loop succeeds, at
utf-8 or else at latin-1, because the latin-1 codec maps every byte
to a character and never raises. -/
theorem load_decode_never_fails (bs : List (Fin 256)) :
    load_decode bs ≠ none ∧
    (load_decode bs = some "utf-8" ∨ load_decode bs = some "latin-1") := by
  have hl : decodes "latin-1" bs = true := by simp [decodes]
  cases hu : decodes "utf-8" bs with
  | true =>
    have h : load_decode bs = some "utf-8" := by
      simp [load_decode, read_csv_encodings, List.find?, hu]
    simp [h]
  | false =>
    have h : load_decode bs = some "latin-1" := by
      simp [load_decode, read_csv_encodings, List.find?, hu, hl]
    simp [h]

/-- C10: the duplicate-serial report never holds a blank (empty or
whitespace-only) value, and by construction holds no null cell,
while the duplicate-hostname report applies no such filter: a
whitespace hostname occurring twice is reported, the same whitespace
serial occurring twice is not. -/
theorem duplicate_serials_never_blank :
    (∀ df : List Row, ∀ v ∈ duplicate_serial_numbers df, isBlankStr v = false) ∧
    duplicate_hostnames [rW1, rW2] = [" "] ∧
    duplicate_serial_numbers [rW1, rW2] = [] := by
  refine ⟨?_, by decide, by decide⟩
  intro df v hv
  have h := (List.mem_filter.mp hv).2
  simpa using h

/-- C10 witness: the blank-filter theorem applied at a concrete
dataset where serial value x occurs twice. -/
theorem duplicate_serials_never_blank_witness :
    isBlankStr "x" = false :=
  duplicate_serials_never_blank.1 [rX1, rX2] "x" (by decide)
